import Mathlib

/-!
Shallow embedding of `src/count_lines.py`: a utility that recursively scans
directories, counts lines in `.cpp` and `.hpp` files, prints per-file counts,
and aggregates per-root and grand totals.

Modelling choices:
* Python strings are modelled as `List Char` (`Str`), file contents as byte
  lists (`List Nat`).
* `open(path, 'r', encoding='utf-8', errors='ignore')` is modelled by the
  total function `decodeIgnore`, which drops bytes that cannot be decoded
  (undecodable bytes are modelled as the bytes `≥ 128`; decodable text stays
  in the ASCII range, where one byte is one character and the newline is the
  byte 10).  The essential behaviour — decoding never fails, bad bytes are
  silently dropped — is preserved.
* `sum(1 for _ in f)` over a text handle is `lineCount`: the number of
  newline bytes, plus one more when the content is non-empty and does not
  end in a newline (Python's line iteration counts an unterminated final
  line).  Record terminators are modelled as the LF byte 10.
* `os.walk` over a directory tree is `walkTree`/`walkForest` on a
  `Tree`/`Forest` value; a directory whose listing fails (permissions) is a
  node with `listable = false`, which `os.walk`'s default error handler
  skips silently (`onerror=None`).
* Output is a list of `OutEvent`s; constructors record which stream a line
  goes to (`fileLine`, `banner`, `summary`, `sep`, `total` are stdout,
  `warn` and `errNotDir` are stderr).
-/

namespace CountLines

/-- Python strings (filenames, paths, messages) as character lists. -/
abbrev Str := List Char

/-- One printed line of the program, tagged by its kind.
`fileLine`, `banner`, `summary`, `sep` and `total` go to standard output;
`warn` and `errNotDir` go to standard error. -/
inductive OutEvent where
  /-- stdout: `<path>: <N> lines` -/
  | fileLine (path : Str) (count : Nat)
  /-- stderr: `Warning: could not read '<path>': <cause>` -/
  | warn (path : Str) (cause : Str)
  /-- stdout: `== Scanning '<dir>' ==` -/
  | banner (dir : Str)
  /-- stdout: `Summary for '<dir>': .cpp=<c>  .hpp=<h>  sum=<c+h>` -/
  | summary (dir : Str) (cpp hpp : Nat)
  /-- stderr: `Error: '<dir>' is not a directory` -/
  | errNotDir (dir : Str)
  /-- stdout: the separator line of 40 `=` characters -/
  | sep
  /-- stdout: `TOTAL across <k> dirs: .cpp=<c>  .hpp=<h>  sum=<c+h>` -/
  | total (k cpp hpp : Nat)
deriving DecidableEq

/-- The suffix `".cpp"` from `fname.endswith('.cpp')`. -/
def cppSuffix : Str := ['.', 'c', 'p', 'p']

/-- The suffix `".hpp"` from `fname.endswith('.hpp')`. -/
def hppSuffix : Str := ['.', 'h', 'p', 'p']

/-- Python `name.endswith(suff)`. -/
def endswith (name suff : Str) : Bool := decide (suff <:+ name)

/-- The filter `fname.endswith(('.cpp', '.hpp'))` on line 12 of the source. -/
def isMatch (name : Str) : Bool := endswith name cppSuffix || endswith name hppSuffix

/-- Whether a byte is decodable under the modelled text encoding (ASCII
range; bytes `≥ 128` stand for undecodable byte sequences). -/
def decodable (b : Nat) : Bool := b < 128

/-- `errors='ignore'` decoding: undecodable bytes are silently dropped.
Total — decoding never raises. -/
def decodeIgnore (bs : List Nat) : List Nat := bs.filter decodable

/-- Python's text-mode line iteration count (`sum(1 for _ in f)`): one line
per newline byte 10, plus one more for a non-empty unterminated final line. -/
def lineCount (cs : List Nat) : Nat :=
  cs.count 10 +
    (match cs.getLast? with
     | none => 0
     | some c => if c = 10 then 0 else 1)

/-- Lines 17–18 of the source: decode the raw bytes permissively, then count
lines of the resulting text. -/
def fileLineCount (bs : List Nat) : Nat := lineCount (decodeIgnore bs)

/-- A directory entry: its filename and the result of trying to open and
read it (`Except.error cause` models any `Exception` raised by
`open`/reading; `Except.ok bytes` is the raw content). -/
structure FileData where
  name : Str
  read : Except Str (List Nat)

/-- `os.path.join(dirpath, fname)`. -/
def joinPath (dirpath fname : Str) : Str := dirpath ++ ['/'] ++ fname

/-- The body of the inner loop of `count_lines` (lines 12–29) for a single
filename: filter by suffix, attempt to read, warn on failure, otherwise
print the per-file line and contribute the count to exactly one of the two
counters (`.cpp` first, `else` is `.hpp`).  Result: the `(cpp, hpp)`
contribution and the emitted output events. -/
def processFile (dirpath : Str) (f : FileData) : Nat × Nat × List OutEvent :=
  if isMatch f.name then
    match f.read with
    | Except.error e => (0, 0, [OutEvent.warn (joinPath dirpath f.name) e])
    | Except.ok bs =>
      let n := fileLineCount bs
      if endswith f.name cppSuffix then
        (n, 0, [OutEvent.fileLine (joinPath dirpath f.name) n])
      else
        (0, n, [OutEvent.fileLine (joinPath dirpath f.name) n])
  else (0, 0, [])

/-- The inner `for fname in filenames` loop of `count_lines`, over one
directory's file list, accumulating counter contributions and output. -/
def walkFiles (dirpath : Str) : List FileData → Nat × Nat × List OutEvent
  | [] => (0, 0, [])
  | f :: rest =>
    let a := processFile dirpath f
    let b := walkFiles dirpath rest
    (a.1 + b.1, a.2.1 + b.2.1, a.2.2 ++ b.2.2)

mutual
/-- A directory on disk: whether listing it succeeds (`os.walk`'s
`scandir` call), its regular files, and its named subdirectories. -/
inductive Tree where
  | node (listable : Bool) (files : List FileData) (subdirs : Forest) : Tree
/-- The ordered list of named subdirectories of a directory. -/
inductive Forest where
  | nil : Forest
  | cons (name : Str) (t : Tree) (rest : Forest) : Forest
end

mutual
/-- `os.walk(root)` (topdown) driving the loop body of `count_lines`: an
unlistable directory yields nothing (default `onerror=None` ignores the
error); otherwise its files are processed, then its subdirectories in
order. -/
def walkTree (path : Str) : Tree → Nat × Nat × List OutEvent
  | Tree.node listable files subdirs =>
    if listable then
      let a := walkFiles path files
      let b := walkForest path subdirs
      (a.1 + b.1, a.2.1 + b.2.1, a.2.2 ++ b.2.2)
    else (0, 0, [])
/-- Traversal of a subdirectory list: each child named `name` is walked
with dirpath `path/name`. -/
def walkForest (path : Str) : Forest → Nat × Nat × List OutEvent
  | Forest.nil => (0, 0, [])
  | Forest.cons name t rest =>
    let a := walkTree (joinPath path name) t
    let b := walkForest path rest
    (a.1 + b.1, a.2.1 + b.2.1, a.2.2 ++ b.2.2)
end

/-- `count_lines(root)` (lines 6–31): walk the tree rooted at `root`,
returning `(cpp_lines, hpp_lines)` together with the printed output. -/
def count_lines (root : Str) (t : Tree) : Nat × Nat × List OutEvent :=
  walkTree root t

/-- The filesystem visible to `main`: which paths name directories, and the
tree behind each.  `os.path.isdir d` is `(fs.lookup d).isSome`. -/
abbrev Filesystem := List (Str × Tree)

/-- `os.path.isdir` on the modelled filesystem. -/
def isdir (fs : Filesystem) (d : Str) : Bool := (fs.lookup d).isSome

/-- The `for d in args.dirs` loop of `main` (lines 49–58): a non-directory
argument gets an error line and is skipped; a valid root gets a banner, is
counted, gets a summary line, and its totals are accumulated. -/
def mainLoop (fs : Filesystem) : List Str → Nat × Nat × List OutEvent
  | [] => (0, 0, [])
  | d :: rest =>
    match fs.lookup d with
    | none =>
      let b := mainLoop fs rest
      (b.1, b.2.1, OutEvent.errNotDir d :: b.2.2)
    | some t =>
      let r := count_lines d t
      let b := mainLoop fs rest
      (r.1 + b.1, r.2.1 + b.2.1,
        OutEvent.banner d :: (r.2.2 ++ (OutEvent.summary d r.1 r.2.1 :: b.2.2)))

/-- `argparse` with `nargs='*'` and `default=['.']`: the current directory
when no positional arguments are given, otherwise the given list. -/
def effectiveDirs (args : List Str) : List Str :=
  if args.isEmpty then [['.']] else args

/-- `main()` (lines 33–63): process every root, then print the grand-total
block exactly when `len(args.dirs) > 1`.  Result: the full output stream. -/
def main (fs : Filesystem) (args : List Str) : List OutEvent :=
  let dirs := effectiveDirs args
  let r := mainLoop fs dirs
  r.2.2 ++
    (if dirs.length > 1 then [OutEvent.sep, OutEvent.total dirs.length r.1 r.2.1]
     else [])

mutual
/-- Spec-side: the files "found anywhere in the subtree" by the traversal,
in visit order (files of an unlistable directory are never found). -/
def foundFilesT : Tree → List FileData
  | Tree.node listable files subdirs =>
    if listable then files ++ foundFilesF subdirs else []
/-- Spec-side: the files found in a subdirectory list. -/
def foundFilesF : Forest → List FileData
  | Forest.nil => []
  | Forest.cons _ t rest => foundFilesT t ++ foundFilesF rest
end

/-- Spec-side (from the spec's words, for the refinement claim C1): the
line-count contribution of one found file to the category of suffix
`suff` — its line count when the file was successfully read and its name
ends with `suff`, else `0`. -/
def specFileContrib (suff : Str) (f : FileData) : Nat :=
  if endswith f.name suff then
    match f.read with
    | Except.ok bs => fileLineCount bs
    | Except.error _ => 0
  else 0

/-- Spec-side (from the spec's words): "the summed line counts of all
category files found anywhere in the subtree" for the category of suffix
`suff`. -/
def specCatSum (suff : Str) (l : List FileData) : Nat :=
  (l.map (specFileContrib suff)).sum

/-- The count printed by one `fileLine` event (zero for any other line). -/
def evCount : OutEvent → Nat
  | OutEvent.fileLine _ n => n
  | _ => 0

/-- The sum of the individually printed per-file counts in an output
stream. -/
def sumFileLines (evs : List OutEvent) : Nat := (evs.map evCount).sum

/-- Whether an event belongs to the grand-total block (the separator line
or the `TOTAL across <K> dirs` line). -/
def isGrand : OutEvent → Bool
  | OutEvent.sep => true
  | OutEvent.total _ _ _ => true
  | _ => false

/-- Whether an output stream contains a grand-total block. -/
def hasGrandTotal (evs : List OutEvent) : Bool := evs.any isGrand

/-- The `(K, cpp, hpp)` fields of the first `TOTAL across K dirs` line of
an output stream, if any. -/
def findTotal : List OutEvent → Option (Nat × Nat × Nat)
  | [] => none
  | OutEvent.total k c h :: _ => some (k, c, h)
  | _ :: rest => findTotal rest

/-- The file arrangement `recs`/`tail` of claim C2: `recs.length`
newline-terminated records followed by the unterminated bytes `tail`. -/
def mkContent (recs : List (List Nat)) (tail : List Nat) : List Nat :=
  (recs.map (fun r => r ++ [10])).flatten ++ tail

/-- An empty, listable directory (used in concrete witnesses). -/
def emptyDir : Tree := Tree.node true [] Forest.nil

/-! ## Helper lemmas -/

theorem endswith_iff (name suff : Str) : endswith name suff = true ↔ suff <:+ name := by
  simp [endswith]

/-- Two equal-length suffixes of the same string coincide. -/
theorem endswith_unique (name s1 s2 : Str) (hlen : s1.length = s2.length)
    (h1 : endswith name s1 = true) (h2 : endswith name s2 = true) : s1 = s2 := by
  obtain ⟨u, hu⟩ := (endswith_iff name s1).1 h1
  obtain ⟨v, hv⟩ := (endswith_iff name s2).1 h2
  exact (List.append_inj' (hu.trans hv.symm) hlen).2

/-- No filename ends with both `".hpp"` and `".cpp"`. -/
theorem not_cpp_of_hpp (name : Str) (h : endswith name hppSuffix = true) :
    endswith name cppSuffix = false := by
  cases hc : endswith name cppSuffix with
  | false => rfl
  | true => exact absurd (endswith_unique name hppSuffix cppSuffix rfl h hc) (by decide)

/-- No filename ends with both `".cpp"` and `".hpp"`. -/
theorem not_hpp_of_cpp (name : Str) (h : endswith name cppSuffix = true) :
    endswith name hppSuffix = false := by
  cases hh : endswith name hppSuffix with
  | false => rfl
  | true => exact absurd (endswith_unique name cppSuffix hppSuffix rfl h hh) (by decide)

/-- A matched unreadable file contributes no counts and exactly one warning. -/
theorem processFile_error (d : Str) (f : FileData) (e : Str)
    (hread : f.read = Except.error e) (hm : isMatch f.name = true) :
    processFile d f = (0, 0, [OutEvent.warn (joinPath d f.name) e]) := by
  simp [processFile, hm, hread]

/-- The file loop distributes over list concatenation. -/
theorem walkFiles_append (d : Str) (l1 l2 : List FileData) :
    walkFiles d (l1 ++ l2) =
      ((walkFiles d l1).1 + (walkFiles d l2).1,
       (walkFiles d l1).2.1 + (walkFiles d l2).2.1,
       (walkFiles d l1).2.2 ++ (walkFiles d l2).2.2) := by
  induction l1 with
  | nil => simp [walkFiles]
  | cons f rest ih => simp [walkFiles, ih, Nat.add_assoc, List.append_assoc]

theorem specCatSum_append (suff : Str) (l1 l2 : List FileData) :
    specCatSum suff (l1 ++ l2) = specCatSum suff l1 + specCatSum suff l2 := by
  simp [specCatSum]

theorem sumFileLines_append (l1 l2 : List OutEvent) :
    sumFileLines (l1 ++ l2) = sumFileLines l1 + sumFileLines l2 := by
  simp [sumFileLines]

/-- One file's counter contributions agree with the spec-side per-category
contribution (for both categories at once). -/
theorem processFile_cat (d : Str) (f : FileData) :
    (processFile d f).1 = specFileContrib cppSuffix f ∧
    (processFile d f).2.1 = specFileContrib hppSuffix f := by
  cases hm : isMatch f.name with
  | false =>
    have hc : endswith f.name cppSuffix = false := by
      cases hc : endswith f.name cppSuffix
      · rfl
      · rw [isMatch, hc] at hm; simp at hm
    have hh : endswith f.name hppSuffix = false := by
      cases hh : endswith f.name hppSuffix
      · rfl
      · rw [isMatch, hh] at hm; simp at hm
    simp [processFile, hm, specFileContrib, hc, hh]
  | true =>
    cases hread : f.read with
    | error e =>
      have h1 : specFileContrib cppSuffix f = 0 := by simp [specFileContrib, hread]
      have h2 : specFileContrib hppSuffix f = 0 := by simp [specFileContrib, hread]
      simp [processFile, hm, hread, h1, h2]
    | ok bs =>
      cases hc : endswith f.name cppSuffix with
      | true =>
        have hh := not_hpp_of_cpp f.name hc
        simp [processFile, hm, hread, hc, specFileContrib, hh]
      | false =>
        have hh : endswith f.name hppSuffix = true := by
          rw [isMatch, hc] at hm; simpa using hm
        simp [processFile, hm, hread, hc, specFileContrib, hh]

/-- The file loop's counters agree with the spec-side category sums. -/
theorem walkFiles_cat (d : Str) (l : List FileData) :
    (walkFiles d l).1 = specCatSum cppSuffix l ∧
    (walkFiles d l).2.1 = specCatSum hppSuffix l := by
  induction l with
  | nil => exact ⟨rfl, rfl⟩
  | cons f rest ih =>
    have hp := processFile_cat d f
    constructor
    · simp [walkFiles, specCatSum, hp.1, ih.1]
    · simp [walkFiles, specCatSum, hp.2, ih.2]

mutual
/-- The walk's counters agree with the spec-side category sums over the
files found in the subtree. -/
theorem walkTree_cat (path : Str) (t : Tree) :
    (walkTree path t).1 = specCatSum cppSuffix (foundFilesT t) ∧
    (walkTree path t).2.1 = specCatSum hppSuffix (foundFilesT t) :=
  match t with
  | Tree.node listable files subdirs => by
    have hf := walkForest_cat path subdirs
    have hw := walkFiles_cat path files
    cases listable
    · simp [walkTree, foundFilesT, specCatSum]
    · constructor
      · simp [walkTree, foundFilesT, specCatSum_append, hw.1, hf.1]
      · simp [walkTree, foundFilesT, specCatSum_append, hw.2, hf.2]
theorem walkForest_cat (path : Str) (fr : Forest) :
    (walkForest path fr).1 = specCatSum cppSuffix (foundFilesF fr) ∧
    (walkForest path fr).2.1 = specCatSum hppSuffix (foundFilesF fr) :=
  match fr with
  | Forest.nil => ⟨rfl, rfl⟩
  | Forest.cons name t rest => by
    have h1 := walkTree_cat (joinPath path name) t
    have h2 := walkForest_cat path rest
    constructor
    · simp [walkForest, foundFilesF, specCatSum_append, h1.1, h2.1]
    · simp [walkForest, foundFilesF, specCatSum_append, h1.2, h2.2]
end

/-- One file's two counter contributions add up to the counts it prints. -/
theorem processFile_sum (d : Str) (f : FileData) :
    (processFile d f).1 + (processFile d f).2.1 = sumFileLines (processFile d f).2.2 := by
  cases hm : isMatch f.name with
  | false => simp [processFile, hm, sumFileLines, evCount]
  | true =>
    cases hread : f.read with
    | error e => simp [processFile, hm, hread, sumFileLines, evCount]
    | ok bs =>
      cases hc : endswith f.name cppSuffix
      · simp [processFile, hm, hread, hc, sumFileLines, evCount]
      · simp [processFile, hm, hread, hc, sumFileLines, evCount]

/-- The file loop's counters add up to the printed per-file counts. -/
theorem walkFiles_sum (d : Str) (l : List FileData) :
    (walkFiles d l).1 + (walkFiles d l).2.1 = sumFileLines (walkFiles d l).2.2 := by
  induction l with
  | nil => rfl
  | cons f rest ih =>
    have hp := processFile_sum d f
    simp only [walkFiles, sumFileLines_append]
    omega

mutual
/-- The walk's counters add up to the printed per-file counts. -/
theorem walkTree_sum (path : Str) (t : Tree) :
    (walkTree path t).1 + (walkTree path t).2.1 = sumFileLines (walkTree path t).2.2 :=
  match t with
  | Tree.node listable files subdirs => by
    have hf := walkForest_sum path subdirs
    have hw := walkFiles_sum path files
    cases listable
    · simp [walkTree, sumFileLines]
    · simp only [walkTree, if_true, sumFileLines_append]
      omega
theorem walkForest_sum (path : Str) (fr : Forest) :
    (walkForest path fr).1 + (walkForest path fr).2.1 =
      sumFileLines (walkForest path fr).2.2 :=
  match fr with
  | Forest.nil => rfl
  | Forest.cons name t rest => by
    have h1 := walkTree_sum (joinPath path name) t
    have h2 := walkForest_sum path rest
    simp only [walkForest, sumFileLines_append]
    omega
end

/-- One file's output never contains a grand-total line. -/
theorem processFile_noGrand (d : Str) (f : FileData) :
    (processFile d f).2.2.any isGrand = false := by
  cases hm : isMatch f.name with
  | false => simp [processFile, hm]
  | true =>
    cases hread : f.read with
    | error e => simp [processFile, hm, hread, isGrand]
    | ok bs =>
      cases hc : endswith f.name cppSuffix
      · simp [processFile, hm, hread, hc, isGrand]
      · simp [processFile, hm, hread, hc, isGrand]

/-- The file loop's output never contains a grand-total line. -/
theorem walkFiles_noGrand (d : Str) (l : List FileData) :
    (walkFiles d l).2.2.any isGrand = false := by
  induction l with
  | nil => rfl
  | cons f rest ih =>
    simp only [walkFiles, List.any_append, ih, processFile_noGrand, Bool.or_self]

mutual
/-- The walk's output never contains a grand-total line. -/
theorem walkTree_noGrand (path : Str) (t : Tree) :
    (walkTree path t).2.2.any isGrand = false :=
  match t with
  | Tree.node listable files subdirs => by
    have hf := walkForest_noGrand path subdirs
    cases listable
    · simp [walkTree]
    · simp [walkTree, List.any_append, hf, walkFiles_noGrand]
theorem walkForest_noGrand (path : Str) (fr : Forest) :
    (walkForest path fr).2.2.any isGrand = false :=
  match fr with
  | Forest.nil => rfl
  | Forest.cons name t rest => by
    have h1 := walkTree_noGrand (joinPath path name) t
    have h2 := walkForest_noGrand path rest
    simp [walkForest, List.any_append, h1, h2]
end

/-- The per-root loop's output never contains a grand-total line: only the
final block after the loop prints the separator and `TOTAL` lines. -/
theorem mainLoop_noGrand (fs : Filesystem) (l : List Str) :
    (mainLoop fs l).2.2.any isGrand = false := by
  induction l with
  | nil => rfl
  | cons d rest ih =>
    cases hl : fs.lookup d with
    | none => simp [mainLoop, hl, isGrand, ih]
    | some t =>
      simp [mainLoop, hl, isGrand, ih, List.any_append, count_lines, walkTree_noGrand]

/-- The first `TOTAL` line of an output stream is unaffected by a grand-
total-free front segment. -/
theorem findTotal_append (l1 l2 : List OutEvent) (h : l1.any isGrand = false) :
    findTotal (l1 ++ l2) = findTotal l2 := by
  induction l1 with
  | nil => rfl
  | cons e rest ih =>
    rw [List.any_cons, Bool.or_eq_false_iff] at h
    cases e <;> first
      | simpa [findTotal] using ih h.2
      | exact absurd h.1 (by simp [isGrand])

/-- Newline count of a block of newline-terminated records none of which
contains a newline itself. -/
theorem count_flatten_terminated (recs : List (List Nat))
    (h : ∀ r ∈ recs, ∀ b ∈ r, b ≠ 10) :
    ((recs.map (fun r => r ++ [10])).flatten).count 10 = recs.length := by
  induction recs with
  | nil => rfl
  | cons r rest ih =>
    have hr : r.count 10 = 0 := by
      rw [List.count_eq_zero]
      intro hmem
      exact (h r (by simp) 10 hmem) rfl
    have hrest := ih (fun r' hr' b hb => h r' (by simp [hr']) b hb)
    have h10 : List.count 10 [10] = 1 := rfl
    rw [List.map_cons, List.flatten_cons, List.count_append, List.count_append, hr, h10,
      hrest, List.length_cons]
    omega

/-! ## The claims -/

/-- C1: `count_lines` returns a pair whose first component is the summed
line counts of all successfully read files found anywhere in the subtree
whose names end with `.cpp`, and whose second component is the same sum
over the files whose names end with `.hpp`, nested subdirectories
included. -/
theorem spec_C1_subtree_sums (root : Str) (t : Tree) :
    (count_lines root t).1 = specCatSum cppSuffix (foundFilesT t) ∧
    (count_lines root t).2.1 = specCatSum hppSuffix (foundFilesT t) :=
  walkTree_cat root t

/-- C2: a file of exactly N newline-terminated records followed by a final
unterminated non-empty piece of text is counted as N+1 lines; a completely
empty file is counted as 0 lines. -/
theorem spec_C2_line_count (recs : List (List Nat)) (tail : List Nat)
    (hrecs : ∀ r ∈ recs, ∀ b ∈ r, b ≠ 10 ∧ decodable b = true)
    (htail : tail ≠ []) (htailb : ∀ b ∈ tail, b ≠ 10 ∧ decodable b = true) :
    fileLineCount (mkContent recs tail) = recs.length + 1 ∧ fileLineCount [] = 0 := by
  refine ⟨?_, rfl⟩
  have hdec : decodeIgnore (mkContent recs tail) = mkContent recs tail := by
    rw [decodeIgnore, List.filter_eq_self]
    intro b hb
    rw [mkContent, List.mem_append] at hb
    rcases hb with hb | hb
    · rw [List.mem_flatten] at hb
      obtain ⟨l, hl, hbl⟩ := hb
      rw [List.mem_map] at hl
      obtain ⟨r, hr, rfl⟩ := hl
      rcases List.mem_append.1 hbl with hbr | hb10
      · exact (hrecs r hr b hbr).2
      · rw [List.mem_singleton] at hb10
        subst hb10
        decide
    · exact (htailb b hb).2
  have hlast : (mkContent recs tail).getLast? = some (tail.getLast htail) := by
    rw [mkContent, List.getLast?_append, List.getLast?_eq_getLast tail htail, Option.or_some]
  have hlast10 : tail.getLast htail ≠ 10 := (htailb _ (List.getLast_mem htail)).1
  have hcnt : (mkContent recs tail).count 10 = recs.length := by
    have h2 : tail.count 10 = 0 := by
      rw [List.count_eq_zero]
      intro hmem
      exact (htailb 10 hmem).1 rfl
    rw [mkContent, List.count_append, h2,
      count_flatten_terminated recs (fun r hr b hb => (hrecs r hr b hb).1)]
    omega
  simp only [fileLineCount, hdec, lineCount, hcnt, hlast]
  simp [hlast10]

/-- Witness for C2: two terminated records plus an unterminated byte give
count 3. -/
theorem spec_C2_witness :
    fileLineCount (mkContent [[97], [98]] [99]) = 3 ∧ fileLineCount [] = 0 :=
  spec_C2_line_count [[97], [98]] [99] (by decide) (by decide) (by decide)

/-- C4: an unreadable matching file produces exactly one warning naming its
path and the underlying cause on the error stream, no per-file stdout
line, leaves both counters unchanged (it contributes zero), and traversal
continues with the remaining files. -/
theorem spec_C4_unreadable (d : Str) (fs1 fs2 : List FileData) (f : FileData) (e : Str)
    (hread : f.read = Except.error e) (hm : isMatch f.name = true) :
    walkFiles d (fs1 ++ f :: fs2) =
      ((walkFiles d fs1).1 + (walkFiles d fs2).1,
       (walkFiles d fs1).2.1 + (walkFiles d fs2).2.1,
       (walkFiles d fs1).2.2 ++
         OutEvent.warn (joinPath d f.name) e :: (walkFiles d fs2).2.2) := by
  rw [walkFiles_append]
  simp [walkFiles, processFile_error d f e hread hm]

/-- Witness for C4: a failing `.hpp` file between two readable `.cpp`
files yields one warning and leaves the neighbours' counts intact. -/
theorem spec_C4_witness :
    walkFiles ['d'] ([⟨['a', '.', 'c', 'p', 'p'], Except.ok [10]⟩] ++
        ⟨['b', '.', 'h', 'p', 'p'], Except.error ['E']⟩ ::
          [⟨['c', '.', 'c', 'p', 'p'], Except.ok []⟩]) =
      (1, 0, [OutEvent.fileLine ['d', '/', 'a', '.', 'c', 'p', 'p'] 1,
              OutEvent.warn ['d', '/', 'b', '.', 'h', 'p', 'p'] ['E'],
              OutEvent.fileLine ['d', '/', 'c', '.', 'c', 'p', 'p'] 0]) :=
  spec_C4_unreadable ['d'] [⟨['a', '.', 'c', 'p', 'p'], Except.ok [10]⟩]
    [⟨['c', '.', 'c', 'p', 'p'], Except.ok []⟩]
    ⟨['b', '.', 'h', 'p', 'p'], Except.error ['E']⟩ ['E'] rfl (by decide)

/-- C5: a successfully read matching file's count is added to exactly one
category counter, chosen solely by its extension, and a file matching
neither suffix is skipped entirely — not counted and not printed. -/
theorem spec_C5_category_invariant (d : Str) (f : FileData) :
    (isMatch f.name = false → processFile d f = (0, 0, [])) ∧
    (∀ bs, f.read = Except.ok bs → endswith f.name cppSuffix = true →
      processFile d f =
        (fileLineCount bs, 0, [OutEvent.fileLine (joinPath d f.name) (fileLineCount bs)])) ∧
    (∀ bs, f.read = Except.ok bs → endswith f.name hppSuffix = true →
      processFile d f =
        (0, fileLineCount bs, [OutEvent.fileLine (joinPath d f.name) (fileLineCount bs)])) := by
  refine ⟨?_, ?_, ?_⟩
  · intro hm
    simp [processFile, hm]
  · intro bs hread hc
    have hm : isMatch f.name = true := by simp [isMatch, hc]
    simp [processFile, hm, hread, hc]
  · intro bs hread hh
    have hc := not_cpp_of_hpp f.name hh
    have hm : isMatch f.name = true := by simp [isMatch, hh]
    simp [processFile, hm, hread, hc]

/-- Witness for C5: an ignored `.md` file, a `.cpp` file counted on the
first counter, a `.hpp` file counted on the second. -/
theorem spec_C5_witness :
    processFile ['d'] ⟨['r', '.', 'm', 'd'], Except.ok [97]⟩ = (0, 0, []) ∧
    processFile ['d'] ⟨['a', '.', 'c', 'p', 'p'], Except.ok [97, 10]⟩ =
      (1, 0, [OutEvent.fileLine ['d', '/', 'a', '.', 'c', 'p', 'p'] 1]) ∧
    processFile ['d'] ⟨['b', '.', 'h', 'p', 'p'], Except.ok [97]⟩ =
      (0, 1, [OutEvent.fileLine ['d', '/', 'b', '.', 'h', 'p', 'p'] 1]) :=
  ⟨(spec_C5_category_invariant ['d'] ⟨['r', '.', 'm', 'd'], Except.ok [97]⟩).1 (by decide),
   (spec_C5_category_invariant ['d'] ⟨['a', '.', 'c', 'p', 'p'], Except.ok [97, 10]⟩).2.1
     [97, 10] rfl (by decide),
   (spec_C5_category_invariant ['d'] ⟨['b', '.', 'h', 'p', 'p'], Except.ok [97]⟩).2.2
     [97] rfl (by decide)⟩

/-- C8: for every root, the `.cpp` total plus the `.hpp` total equals the
sum of the individually printed per-file counts under that root. -/
theorem spec_C8_sum_eq_printed (root : Str) (t : Tree) :
    (count_lines root t).1 + (count_lines root t).2.1 =
      sumFileLines (count_lines root t).2.2 :=
  walkTree_sum root t

/-- C9: reading a matching file succeeds for every byte content — the
decoding step never fails, a per-file line with a count is always printed,
and bytes that cannot be decoded are silently dropped (removing them from
the content does not change the reported count). -/
theorem spec_C9_no_decode_failure (d : Str) (f : FileData) (bs : List Nat)
    (hread : f.read = Except.ok bs) (hm : isMatch f.name = true) :
    (processFile d f).2.2 =
      [OutEvent.fileLine (joinPath d f.name) (fileLineCount bs)] ∧
    fileLineCount bs = fileLineCount (bs.filter decodable) := by
  constructor
  · cases hc : endswith f.name cppSuffix
    · simp [processFile, hm, hread, hc]
    · simp [processFile, hm, hread, hc]
  · have hff : (bs.filter decodable).filter decodable = bs.filter decodable := by
      simp [List.filter_filter]
    rw [fileLineCount, fileLineCount, decodeIgnore, decodeIgnore, hff]

/-- Witness for C9: a content with undecodable bytes 200 and 255 still
gets a count (1), unchanged when those bytes are dropped. -/
theorem spec_C9_witness :
    (processFile ['d'] ⟨['x', '.', 'c', 'p', 'p'], Except.ok [200, 97, 10, 255]⟩).2.2 =
      [OutEvent.fileLine ['d', '/', 'x', '.', 'c', 'p', 'p'] 1] ∧
    fileLineCount [200, 97, 10, 255] = fileLineCount ([200, 97, 10, 255].filter decodable) :=
  spec_C9_no_decode_failure ['d'] ⟨['x', '.', 'c', 'p', 'p'], Except.ok [200, 97, 10, 255]⟩
    [200, 97, 10, 255] rfl (by decide)

/-- C10: a subdirectory that cannot be listed is skipped silently — the
walk emits no warning or error line for it and its contents contribute
zero to both counters; an unlistable root likewise yields nothing. -/
theorem spec_C10_unlistable (path p name : Str) (files fls : List FileData)
    (subdirs sds rest : Forest) :
    walkForest path (Forest.cons name (Tree.node false files subdirs) rest) =
      walkForest path rest ∧
    walkTree p (Tree.node false fls sds) = (0, 0, []) := by
  constructor
  · simp [walkForest, walkTree]
  · simp [walkTree]

/-- C3 is false as stated: with valid roots `a` and `b` and a missing
root in between, the grand-total line reports `K = 3`, the number of
supplied roots, while only 2 of them are valid directories. -/
theorem spec_C3_counterexample :
    findTotal (main [(['a'], emptyDir), (['b'], emptyDir)] [['a'], ['m'], ['b']]) =
      some (3, 0, 0) ∧
    ([['a'], ['m'], ['b']].filter (isdir [(['a'], emptyDir), (['b'], emptyDir)])).length = 2 ∧
    findTotal (main [(['a'], emptyDir), (['b'], emptyDir)] [['a'], ['m'], ['b']]) ≠
      some (([['a'], ['m'], ['b']].filter
        (isdir [(['a'], emptyDir), (['b'], emptyDir)])).length, 0, 0) :=
  ⟨by decide, by decide, by decide⟩

/-- C3 (amended): for roots `[a, missing, b]` where `missing` is not a
directory and `a`, `b` are, an error line for `missing` goes to the error
stream, processing continues, the grand totals reflect only `a` and `b` —
but the count of roots in the `TOTAL across <K> dirs` line is the number
of supplied roots (3), not the number of valid roots. -/
theorem spec_C3_invalid_root_skipped (fs : Filesystem) (a m b : Str) (ta tb : Tree)
    (ha : fs.lookup a = some ta) (hm : fs.lookup m = none) (hb : fs.lookup b = some tb) :
    main fs [a, m, b] =
      OutEvent.banner a :: ((count_lines a ta).2.2 ++
        (OutEvent.summary a (count_lines a ta).1 (count_lines a ta).2.1 ::
         OutEvent.errNotDir m ::
         OutEvent.banner b :: ((count_lines b tb).2.2 ++
          [OutEvent.summary b (count_lines b tb).1 (count_lines b tb).2.1,
           OutEvent.sep,
           OutEvent.total 3 ((count_lines a ta).1 + (count_lines b tb).1)
             ((count_lines a ta).2.1 + (count_lines b tb).2.1)]))) := by
  simp [main, effectiveDirs, mainLoop, ha, hm, hb]

/-- Witness for the amended C3 at a concrete filesystem with two empty
valid roots and one missing root. -/
theorem spec_C3_witness :
    main [(['a'], emptyDir), (['b'], emptyDir)] [['a'], ['m'], ['b']] =
      [OutEvent.banner ['a'], OutEvent.summary ['a'] 0 0, OutEvent.errNotDir ['m'],
       OutEvent.banner ['b'], OutEvent.summary ['b'] 0 0,
       OutEvent.sep, OutEvent.total 3 0 0] :=
  spec_C3_invalid_root_skipped [(['a'], emptyDir), (['b'], emptyDir)]
    ['a'] ['m'] ['b'] emptyDir emptyDir rfl rfl rfl

/-- C6: the grand-total block appears in the output exactly when more than
one root argument was supplied; with one argument, or with none (when the
default current directory is used), there is no grand-total block. -/
theorem spec_C6_grand_total_iff (fs : Filesystem) (args : List Str) :
    hasGrandTotal (main fs args) = true ↔ 1 < args.length := by
  cases args with
  | nil =>
    simp [main, effectiveDirs, hasGrandTotal, List.any_append, mainLoop_noGrand]
  | cons a rest =>
    have hml := mainLoop_noGrand fs (a :: rest)
    have hmain : main fs (a :: rest) =
        (mainLoop fs (a :: rest)).2.2 ++
          (if (a :: rest).length > 1 then
              [OutEvent.sep,
               OutEvent.total (a :: rest).length (mainLoop fs (a :: rest)).1
                 (mainLoop fs (a :: rest)).2.1]
            else []) := rfl
    rw [hasGrandTotal, hmain, List.any_append, hml, Bool.false_or]
    by_cases h : 1 < (a :: rest).length
    · rw [if_pos h]
      simp only [List.length_cons] at h
      simp [isGrand]
      omega
    · rw [if_neg h]
      simpa using h

/-- Witness for C6: two (invalid) roots still trigger the grand-total
block. -/
theorem spec_C6_witness : hasGrandTotal (main [] [['a'], ['b']]) = true :=
  (spec_C6_grand_total_iff [] [['a'], ['b']]).2 (by decide)

/-- C7: supplying the same valid root twice reports grand totals equal to
exactly twice the root's per-category totals — contents are double-counted
with no deduplication. -/
theorem spec_C7_double_count (fs : Filesystem) (r : Str) (t : Tree)
    (h : fs.lookup r = some t) :
    findTotal (main fs [r, r]) =
      some (2, 2 * (count_lines r t).1, 2 * (count_lines r t).2.1) := by
  have h2 : main fs [r, r] =
      (mainLoop fs [r, r]).2.2 ++
        [OutEvent.sep, OutEvent.total 2 (mainLoop fs [r, r]).1 (mainLoop fs [r, r]).2.1] := rfl
  rw [h2, findTotal_append _ _ (mainLoop_noGrand fs [r, r])]
  have h3 : (mainLoop fs [r, r]).1 = 2 * (count_lines r t).1 := by
    simp [mainLoop, h, Nat.two_mul]
  have h4 : (mainLoop fs [r, r]).2.1 = 2 * (count_lines r t).2.1 := by
    simp [mainLoop, h, Nat.two_mul]
  simp only [findTotal]
  rw [h3, h4]

/-- Witness for C7: a root holding one 2-line `.cpp` file, supplied twice,
reports `TOTAL across 2 dirs` with 4 `.cpp` lines. -/
theorem spec_C7_witness :
    findTotal (main
      [(['a'], Tree.node true [⟨['x', '.', 'c', 'p', 'p'], Except.ok [97, 10, 98]⟩] Forest.nil)]
      [['a'], ['a']]) = some (2, 4, 0) :=
  spec_C7_double_count
    [(['a'], Tree.node true [⟨['x', '.', 'c', 'p', 'p'], Except.ok [97, 10, 98]⟩] Forest.nil)]
    ['a'] (Tree.node true [⟨['x', '.', 'c', 'p', 'p'], Except.ok [97, 10, 98]⟩] Forest.nil) rfl

end CountLines
